import Mathlib

/-!
Shallow embedding of the stock-analysis app (src/app.py).

The one piece of first-party logic in the repository is the
rolling-indicator pipeline (module-level pandas column assignments plus
`key_levels`) and the decision rule `make_decision`.  We model:

  * prices as real numbers (Python floats are modelled as reals),
  * a pandas column as a `List (Option ℝ)` where `none` stands for NaN/null,
  * `Series.rolling(window=w)` with its default `min_periods = w`
    (the aggregate is defined at row `t` only when the trailing window of
    `w` rows contains `w` non-null observations),
  * a data-frame cell, as seen by `make_decision`, as `Option Cell`, where
    `none` is a null (`pd.isnull` is true), `Cell.num x` is a value that
    `float(...)` converts to `x`, and `Cell.other` is a non-convertible
    value for which `float(...)` raises (the `except` path of the code).
-/

/-- One daily bar of the downloaded price history (a row of the yfinance
data frame).  `openPrice` stands for the "Open" column (`open` is a Lean
keyword). -/
structure PriceBar where
  openPrice : ℝ
  high : ℝ
  low : ℝ
  close : ℝ
  volume : ℝ

/-- Arithmetic mean of a list, as computed by a pandas rolling mean over
the non-null values of a window. -/
noncomputable def mean (xs : List ℝ) : ℝ := xs.sum / xs.length

/-- Sample variance with divisor `n - 1` (pandas `std` default `ddof=1`,
squared). -/
noncomputable def sampleVar (xs : List ℝ) : ℝ :=
  ((xs.map (fun x => (x - mean xs) ^ 2)).sum) / ((xs.length : ℝ) - 1)

/-- Sample standard deviation with divisor `n - 1`, the aggregate of
pandas `rolling(...).std()`. -/
noncomputable def sampleStd (xs : List ℝ) : ℝ := Real.sqrt (sampleVar xs)

/-- Maximum of a list of reals (`rolling(...).max()` aggregate); the `[]`
case is never reached by a rolling window with `min_periods ≥ 1`. -/
def listMax : List ℝ → ℝ
  | [] => 0
  | x :: xs => xs.foldl max x

/-- Minimum of a list of reals (`rolling(...).min()` aggregate). -/
def listMin : List ℝ → ℝ
  | [] => 0
  | x :: xs => xs.foldl min x

/-- `s.rolling(window=w).agg(f)` with the pandas default
`min_periods = w`: at row `t` the window is the (up to `w`) rows
`max 0 (t+1-w) .. t`; the aggregate is applied to the non-null values of
the window and is null unless there are at least `w` of them. -/
noncomputable def rollingApply (w : Nat) (f : List ℝ → ℝ)
    (s : List (Option ℝ)) : List (Option ℝ) :=
  (List.range s.length).map (fun t =>
    if w ≤ (((s.take (t + 1)).drop (t + 1 - w)).filterMap id).length
    then some (f (((s.take (t + 1)).drop (t + 1 - w)).filterMap id))
    else none)

/-- The value `s[t]/s[t-1] - 1` that `pct_change` places at a row `t ≥ 1`
(out-of-range indices never occur; `getD` supplies a dummy default). -/
noncomputable def dailyRet (s : List ℝ) (t : Nat) : ℝ :=
  s.getD t 0 / s.getD (t - 1) 0 - 1

/-- `Series.pct_change()`: null at row 0, `s[t]/s[t-1] - 1` afterwards
(the Close column of the app has no nulls, so the input is a plain
list). -/
noncomputable def pctChange (s : List ℝ) : List (Option ℝ) :=
  (List.range s.length).map (fun t =>
    if t = 0 then none else some (dailyRet s t))

/-- The enriched data frame: the original bars plus the six derived
columns assigned at module level in src/app.py (`key_levels` supplies
Resistance and Support). -/
structure Enriched where
  bars : List PriceBar
  sma50 : List (Option ℝ)
  sma200 : List (Option ℝ)
  dailyReturn : List (Option ℝ)
  volatility : List (Option ℝ)
  resistance : List (Option ℝ)
  support : List (Option ℝ)

/-- The indicator pipeline:
`df["SMA_50"] = df["Close"].rolling(window=50).mean()`,
`df["SMA_200"] = df["Close"].rolling(window=200).mean()`,
`df["Daily Return"] = df["Close"].pct_change()`,
`df["Volatility"] = df["Daily Return"].rolling(window=30).std()`,
`df["Resistance"], df["Support"] = key_levels(df)` where `key_levels`
takes `rolling(window=30).max()` of High and `rolling(window=30).min()`
of Low. -/
noncomputable def enrich (bars : List PriceBar) : Enriched :=
  let closes := bars.map PriceBar.close
  { bars := bars
    sma50 := rollingApply 50 mean (closes.map some)
    sma200 := rollingApply 200 mean (closes.map some)
    dailyReturn := pctChange closes
    volatility := rollingApply 30 sampleStd (pctChange closes)
    resistance := rollingApply 30 listMax ((bars.map PriceBar.high).map some)
    support := rollingApply 30 listMin ((bars.map PriceBar.low).map some) }

/-- A data-frame cell as `make_decision` can encounter it: a value that
`float(...)` converts, or one on which `float(...)` raises. A null cell
(NaN/None, caught by `pd.isnull`) is `none` at the `Option Cell` layer. -/
inductive Cell where
  | num (x : ℝ)
  | other

/-- `float(value)` inside the `try` block: succeeds exactly on numeric
cells.  It is applied only after the null check, so the `none` branch is
unreachable in `make_decision`. -/
def floatOf : Option Cell → Option ℝ
  | some (Cell.num x) => some x
  | some Cell.other => none
  | none => none

/-- The five columns of a row that `make_decision` reads. -/
structure RawRow where
  sma50 : Option Cell
  sma200 : Option Cell
  volatility : Option Cell
  close : Option Cell
  support : Option Cell

/-- The data frame handed to `make_decision`: its rows, restricted to the
columns the function reads. -/
structure Frame where
  rows : List RawRow

/-- The result tuple of `make_decision`:
`("BUY", close, close * 1.02, close * 0.98, 2)` or
`("HOLD", None, None, None, None)`. -/
structure Recommendation where
  action : String
  entry : Option ℝ
  tp : Option ℝ
  sl : Option ℝ
  rr : Option ℝ

/-- `("HOLD", None, None, None, None)`. -/
def holdRec : Recommendation := ⟨"HOLD", none, none, none, none⟩

/-- The body of `make_decision` from the null check on: `latest` is
`data.iloc[-1]`.  The match's catch-all is the `except` branch of the
`float(...)` conversions. -/
noncomputable def evalLatest (latest : RawRow) : Recommendation :=
  if latest.sma50.isNone || latest.sma200.isNone || latest.volatility.isNone
      || latest.close.isNone || latest.support.isNone then
    holdRec
  else
    match floatOf latest.sma50, floatOf latest.sma200, floatOf latest.volatility,
        floatOf latest.close, floatOf latest.support with
    | some sma_50, some sma_200, some volatility, some close, some support =>
      if sma_50 > sma_200 ∧ volatility < 0.02 ∧ close > support then
        ⟨"BUY", some close, some (close * 1.02), some (close * 0.98), some 2⟩
      else holdRec
    | _, _, _, _, _ => holdRec

/-- `make_decision(data)` of src/app.py.  `data.iloc[-1]` on a frame with
at least 200 rows always exists, so the `none` branch of `getLast?` is
unreachable. -/
noncomputable def make_decision (data : Frame) : Recommendation :=
  if data.rows.length < 200 then holdRec
  else
    match data.rows.getLast? with
    | some latest => evalLatest latest
    | none => holdRec

/-- View of the enriched frame as the input of `make_decision`: every
cell holds the (float) value of the corresponding column, or is null
where the column is null; the Close column of the downloaded history is
never null. -/
noncomputable def toFrame (e : Enriched) : Frame :=
  ⟨(List.range e.bars.length).map (fun t =>
    { sma50 := (e.sma50.getD t none).map Cell.num
      sma200 := (e.sma200.getD t none).map Cell.num
      volatility := (e.volatility.getD t none).map Cell.num
      close := some (Cell.num ((e.bars.map PriceBar.close).getD t 0))
      support := (e.support.getD t none).map Cell.num })⟩

/-- `load_data` of src/app.py, with the network fetch
`yf.download(symbol, period=period)` supplied as the argument `fetched`:
an empty download raises `ValueError(f"No data found for {symbol}.")`,
otherwise the history is returned (the index juggling does not change
the bars). -/
def load_data (symbol : String) (fetched : List PriceBar) :
    Except String (List PriceBar) :=
  if fetched.isEmpty then
    Except.error ("No data found for " ++ symbol ++ ".")
  else
    Except.ok fetched

/-- The main script body for one selected symbol: load the data (an
error propagates to the catch-all handler and no recommendation is
computed), enrich it, and run `make_decision` on the result. -/
noncomputable def runApp (symbol : String) (fetched : List PriceBar) :
    Except String Recommendation :=
  (load_data symbol fetched).map (fun df => make_decision (toFrame (enrich df)))

/-- One full row of the enriched frame: the original bar together with
the six derived columns (null where the rolling window is not yet
full). -/
structure Row where
  bar : PriceBar
  sma50 : Option ℝ
  sma200 : Option ℝ
  dailyReturn : Option ℝ
  volatility : Option ℝ
  resistance : Option ℝ
  support : Option ℝ

/-- The final row of the enriched frame (`none` when the frame is
empty): all the data `data.iloc[-1]` carries. -/
noncomputable def lastRow (e : Enriched) : Option Row :=
  e.bars.getLast?.map (fun b =>
    { bar := b
      sma50 := e.sma50.getLast?.getD none
      sma200 := e.sma200.getLast?.getD none
      dailyReturn := e.dailyReturn.getLast?.getD none
      volatility := e.volatility.getLast?.getD none
      resistance := e.resistance.getLast?.getD none
      support := e.support.getLast?.getD none })

/-- The restriction of a full final row to the five cells `make_decision`
reads, in the cell encoding of `Frame`. -/
noncomputable def rawOf (row : Row) : RawRow :=
  { sma50 := row.sma50.map Cell.num
    sma200 := row.sma200.map Cell.num
    volatility := row.volatility.map Cell.num
    close := some (Cell.num row.bar.close)
    support := row.support.map Cell.num }

/-- A constant one-point bar used to build concrete histories. -/
noncomputable def barU : PriceBar := ⟨1, 1, 1, 1, 1⟩

/-- A row whose five decision cells are all null. -/
def blankRow : RawRow := ⟨none, none, none, none, none⟩

/-- Scenario B final row: SMA_50 = 110, SMA_200 = 100, Volatility = 0.01,
Close = 105, Support = 100. -/
noncomputable def rowB : RawRow :=
  ⟨some (Cell.num 110), some (Cell.num 100), some (Cell.num 0.01),
   some (Cell.num 105), some (Cell.num 100)⟩

/-- A 250-row frame ending in the scenario B row. -/
noncomputable def frameB : Frame := ⟨List.replicate 249 blankRow ++ [rowB]⟩

/-- A 199-row frame all of whose rows would trigger a BUY. -/
noncomputable def frame199 : Frame := ⟨List.replicate 199 rowB⟩

/-- A final row with a null Volatility cell and otherwise BUY-favourable
values. -/
noncomputable def rowM : RawRow :=
  ⟨some (Cell.num 110), some (Cell.num 100), none,
   some (Cell.num 105), some (Cell.num 100)⟩

/-- A 250-row frame ending in the null-Volatility row. -/
noncomputable def frameM : Frame := ⟨List.replicate 249 blankRow ++ [rowM]⟩

/-- A BUY-triggering final row with Close = 100. -/
noncomputable def rowW : RawRow :=
  ⟨some (Cell.num 120), some (Cell.num 100), some (Cell.num 0.01),
   some (Cell.num 100), some (Cell.num 90)⟩

/-- A 250-row frame ending in the Close = 100 BUY row. -/
noncomputable def frameW : Frame := ⟨List.replicate 249 blankRow ++ [rowW]⟩

/-! ### Window arithmetic helper lemmas -/

theorem list_drop_range (k n : Nat) (h : k ≤ n) :
    (List.range n).drop k = List.range' k (n - k) := by
  rw [List.range_eq_range']
  have h2 : List.range' 0 n = List.range' 0 k ++ List.range' k (n - k) := by
    have h3 := List.range'_append 0 k (n - k) 1
    simp only [one_mul, Nat.zero_add] at h3
    rw [h3]
    congr 1
    omega
  rw [h2, List.drop_left' (by simp)]

theorem length_rollingApply (w : Nat) (f : List ℝ → ℝ) (s : List (Option ℝ)) :
    (rollingApply w f s).length = s.length := by
  simp [rollingApply]

theorem length_pctChange (s : List ℝ) : (pctChange s).length = s.length := by
  simp [pctChange]

theorem rollingApply_getD (w : Nat) (f : List ℝ → ℝ) (s : List (Option ℝ))
    (t : Nat) (ht : t < s.length) :
    (rollingApply w f s).getD t none =
      if w ≤ (((s.take (t + 1)).drop (t + 1 - w)).filterMap id).length
      then some (f (((s.take (t + 1)).drop (t + 1 - w)).filterMap id))
      else none := by
  unfold rollingApply
  rw [List.getD_eq_getElem?_getD, List.getElem?_map, List.getElem?_range ht]
  simp only [Option.map_some', Option.getD_some]

theorem rollingApply_map_getD (w : Nat) (f : List ℝ → ℝ) (l : List ℝ)
    (t : Nat) (ht : t < l.length) :
    (rollingApply w f (l.map some)).getD t none =
      if w ≤ t + 1 then some (f ((l.drop (t + 1 - w)).take w)) else none := by
  have hv : (((l.map some).take (t + 1)).drop (t + 1 - w)).filterMap id
      = (l.take (t + 1)).drop (t + 1 - w) := by
    rw [← List.map_take, ← List.map_drop, List.filterMap_map]
    exact List.filterMap_some _
  rw [rollingApply_getD w f _ t (by simpa using ht), hv]
  have hlen : ((l.take (t + 1)).drop (t + 1 - w)).length
      = (t + 1) - (t + 1 - w) := by
    rw [List.length_drop, List.length_take]
    omega
  by_cases hw : w ≤ t + 1
  · rw [if_pos (by omega), if_pos hw]
    have harg : (l.take (t + 1)).drop (t + 1 - w) = (l.drop (t + 1 - w)).take w := by
      rw [List.drop_take]
      have hsub : t + 1 - (t + 1 - w) = w := by omega
      rw [hsub]
    rw [harg]
  · rw [if_neg (by omega), if_neg hw]

theorem pctChange_getD (s : List ℝ) (t : Nat) (ht : t < s.length) :
    (pctChange s).getD t none =
      if t = 0 then none else some (dailyRet s t) := by
  unfold pctChange
  rw [List.getD_eq_getElem?_getD, List.getElem?_map, List.getElem?_range ht]
  simp only [Option.map_some', Option.getD_some]

theorem filterMap_eq_map_of {α β : Type} (g : α → Option β) (h : α → β)
    (l : List α) (H : ∀ x ∈ l, g x = some (h x)) :
    l.filterMap g = l.map h := by
  induction l with
  | nil => rfl
  | cons a as ih =>
    have ha := H a (by simp)
    have hrest := ih (fun x hx => H x (by simp [hx]))
    simp [List.filterMap_cons, ha, hrest]

/-! ### Characterization of the derived columns of `enrich` -/

theorem length_enrich_sma50 (bars : List PriceBar) :
    (enrich bars).sma50.length = bars.length := by
  show (rollingApply 50 mean ((bars.map PriceBar.close).map some)).length = _
  rw [length_rollingApply]
  simp

theorem length_enrich_sma200 (bars : List PriceBar) :
    (enrich bars).sma200.length = bars.length := by
  show (rollingApply 200 mean ((bars.map PriceBar.close).map some)).length = _
  rw [length_rollingApply]
  simp

theorem length_enrich_dailyReturn (bars : List PriceBar) :
    (enrich bars).dailyReturn.length = bars.length := by
  show (pctChange (bars.map PriceBar.close)).length = _
  rw [length_pctChange]
  simp

theorem length_enrich_volatility (bars : List PriceBar) :
    (enrich bars).volatility.length = bars.length := by
  show (rollingApply 30 sampleStd (pctChange (bars.map PriceBar.close))).length = _
  rw [length_rollingApply, length_pctChange]
  simp

theorem length_enrich_resistance (bars : List PriceBar) :
    (enrich bars).resistance.length = bars.length := by
  show (rollingApply 30 listMax ((bars.map PriceBar.high).map some)).length = _
  rw [length_rollingApply]
  simp

theorem length_enrich_support (bars : List PriceBar) :
    (enrich bars).support.length = bars.length := by
  show (rollingApply 30 listMin ((bars.map PriceBar.low).map some)).length = _
  rw [length_rollingApply]
  simp

theorem sma50_getD (bars : List PriceBar) (t : Nat) (ht : t < bars.length) :
    (enrich bars).sma50.getD t none =
      if 49 ≤ t then
        some (mean (((bars.map PriceBar.close).drop (t - 49)).take 50))
      else none := by
  show (rollingApply 50 mean ((bars.map PriceBar.close).map some)).getD t none = _
  rw [rollingApply_map_getD 50 mean _ t (by simpa using ht)]
  by_cases h : 49 ≤ t
  · rw [if_pos (by omega), if_pos h]
    have hs : t + 1 - 50 = t - 49 := by omega
    rw [hs]
  · rw [if_neg (by omega), if_neg h]

theorem sma200_getD (bars : List PriceBar) (t : Nat) (ht : t < bars.length) :
    (enrich bars).sma200.getD t none =
      if 199 ≤ t then
        some (mean (((bars.map PriceBar.close).drop (t - 199)).take 200))
      else none := by
  show (rollingApply 200 mean ((bars.map PriceBar.close).map some)).getD t none = _
  rw [rollingApply_map_getD 200 mean _ t (by simpa using ht)]
  by_cases h : 199 ≤ t
  · rw [if_pos (by omega), if_pos h]
    have hs : t + 1 - 200 = t - 199 := by omega
    rw [hs]
  · rw [if_neg (by omega), if_neg h]

theorem resistance_getD (bars : List PriceBar) (t : Nat) (ht : t < bars.length) :
    (enrich bars).resistance.getD t none =
      if 29 ≤ t then
        some (listMax (((bars.map PriceBar.high).drop (t - 29)).take 30))
      else none := by
  show (rollingApply 30 listMax ((bars.map PriceBar.high).map some)).getD t none = _
  rw [rollingApply_map_getD 30 listMax _ t (by simpa using ht)]
  by_cases h : 29 ≤ t
  · rw [if_pos (by omega), if_pos h]
    have hs : t + 1 - 30 = t - 29 := by omega
    rw [hs]
  · rw [if_neg (by omega), if_neg h]

theorem support_getD (bars : List PriceBar) (t : Nat) (ht : t < bars.length) :
    (enrich bars).support.getD t none =
      if 29 ≤ t then
        some (listMin (((bars.map PriceBar.low).drop (t - 29)).take 30))
      else none := by
  show (rollingApply 30 listMin ((bars.map PriceBar.low).map some)).getD t none = _
  rw [rollingApply_map_getD 30 listMin _ t (by simpa using ht)]
  by_cases h : 29 ≤ t
  · rw [if_pos (by omega), if_pos h]
    have hs : t + 1 - 30 = t - 29 := by omega
    rw [hs]
  · rw [if_neg (by omega), if_neg h]

theorem dailyReturn_getD (bars : List PriceBar) (t : Nat) (ht : t < bars.length) :
    (enrich bars).dailyReturn.getD t none =
      if t = 0 then none else some (dailyRet (bars.map PriceBar.close) t) := by
  show (pctChange (bars.map PriceBar.close)).getD t none = _
  exact pctChange_getD _ t (by simpa using ht)

theorem volatility_getD (bars : List PriceBar) (t : Nat) (ht : t < bars.length) :
    (enrich bars).volatility.getD t none =
      if 30 ≤ t then
        some (sampleStd ((List.range' (t - 29) 30).map
          (dailyRet (bars.map PriceBar.close))))
      else none := by
  have hN : (bars.map PriceBar.close).length = bars.length := by simp
  show (rollingApply 30 sampleStd (pctChange (bars.map PriceBar.close))).getD t none = _
  rw [rollingApply_getD 30 sampleStd _ t (by rw [length_pctChange, hN]; exact ht)]
  have hwin : (((pctChange (bars.map PriceBar.close)).take (t + 1)).drop (t + 1 - 30)).filterMap id
      = (List.range' (t + 1 - 30) (t + 1 - (t + 1 - 30))).filterMap
          (fun i => if i = 0 then none
            else some (dailyRet (bars.map PriceBar.close) i)) := by
    unfold pctChange
    rw [hN, ← List.map_take, List.take_range, min_eq_left (by omega),
        ← List.map_drop, list_drop_range _ _ (by omega), List.filterMap_map,
        Function.id_comp]
  rw [hwin]
  by_cases h30 : 30 ≤ t
  · have ha : t + 1 - 30 = t - 29 := by omega
    have hm : t + 1 - (t + 1 - 30) = 30 := by omega
    rw [hm, ha]
    have hmap : (List.range' (t - 29) 30).filterMap
        (fun i => if i = 0 then none
          else some (dailyRet (bars.map PriceBar.close) i))
        = (List.range' (t - 29) 30).map (dailyRet (bars.map PriceBar.close)) := by
      apply filterMap_eq_map_of
      intro x hx
      rcases List.mem_range'.1 hx with ⟨i, hi, rfl⟩
      rw [if_neg (by omega)]
    rw [hmap, if_pos (by simp), if_pos h30]
  · have ha : t + 1 - 30 = 0 := by omega
    rw [ha, Nat.sub_zero, ← List.range_eq_range', List.range_succ_eq_map]
    rw [if_neg h30, if_neg]
    intro hcon
    have hle := List.length_filterMap_le
      (fun i => if i = 0 then none
        else some (dailyRet (bars.map PriceBar.close) i))
      (List.map Nat.succ (List.range t))
    simp [List.filterMap_cons, List.length_map, List.length_range] at hcon hle
    omega

/-! ### Decision-rule helper lemmas -/

theorem make_decision_short (fr : Frame) (h : fr.rows.length < 200) :
    make_decision fr = holdRec := by
  unfold make_decision
  rw [if_pos h]

theorem make_decision_eq_evalLatest (fr : Frame) (row : RawRow)
    (hlen : 200 ≤ fr.rows.length) (hlast : fr.rows.getLast? = some row) :
    make_decision fr = evalLatest row := by
  unfold make_decision
  rw [if_neg (by omega), hlast]

theorem evalLatest_num (s50 s200 vol c sup : ℝ) :
    evalLatest ⟨some (Cell.num s50), some (Cell.num s200), some (Cell.num vol),
      some (Cell.num c), some (Cell.num sup)⟩ =
      if s50 > s200 ∧ vol < 0.02 ∧ c > sup then
        ⟨"BUY", some c, some (c * 1.02), some (c * 0.98), some 2⟩
      else holdRec := by
  unfold evalLatest
  simp [floatOf]

theorem evalLatest_missing (row : RawRow)
    (h : row.sma50 = none ∨ row.sma200 = none ∨ row.volatility = none
        ∨ row.close = none ∨ row.support = none) :
    evalLatest row = holdRec := by
  unfold evalLatest
  rcases h with h | h | h | h | h <;> simp [h]

/-! ### Claim theorems -/

/-- C1: for a frame with at least 200 rows whose final row carries
numeric SMA_50, SMA_200, Volatility, Close and Support values, the
decision rule returns BUY exactly when SMA_50 > SMA_200, Volatility <
0.02 and Close > Support; on BUY the tuple is
(BUY, Close, Close * 1.02, Close * 0.98, 2), otherwise it is HOLD with
all four secondary fields null. -/
theorem decision_rule_final_row (fr : Frame) (s50 s200 vol c sup : ℝ)
    (hlen : 200 ≤ fr.rows.length)
    (hlast : fr.rows.getLast? = some ⟨some (Cell.num s50), some (Cell.num s200),
      some (Cell.num vol), some (Cell.num c), some (Cell.num sup)⟩) :
    ((make_decision fr).action = "BUY" ↔ s50 > s200 ∧ vol < 0.02 ∧ c > sup)
    ∧ (s50 > s200 ∧ vol < 0.02 ∧ c > sup →
        make_decision fr = ⟨"BUY", some c, some (c * 1.02), some (c * 0.98), some 2⟩)
    ∧ (¬(s50 > s200 ∧ vol < 0.02 ∧ c > sup) →
        make_decision fr = ⟨"HOLD", none, none, none, none⟩) := by
  have hd := make_decision_eq_evalLatest fr _ hlen hlast
  rw [hd, evalLatest_num]
  by_cases hcond : s50 > s200 ∧ vol < 0.02 ∧ c > sup
  · rw [if_pos hcond]
    exact ⟨⟨fun _ => hcond, fun _ => rfl⟩, fun _ => rfl, fun hn => absurd hcond hn⟩
  · rw [if_neg hcond]
    refine ⟨⟨fun hb => ?_, fun hcc => absurd hcc hcond⟩,
      fun hcc => absurd hcc hcond, fun _ => rfl⟩
    simp [holdRec] at hb

/-- Witness for C1 at scenario B: a 250-row frame with final row
SMA_50 = 110, SMA_200 = 100, Volatility = 0.01, Close = 105,
Support = 100 yields (BUY, 105.00, 107.10, 102.90, 2). -/
theorem decision_rule_final_row_witness :
    (200 ≤ frameB.rows.length
      ∧ frameB.rows.getLast? = some ⟨some (Cell.num 110), some (Cell.num 100),
          some (Cell.num 0.01), some (Cell.num 105), some (Cell.num 100)⟩)
    ∧ make_decision frameB = ⟨"BUY", some 105, some 107.10, some 102.90, some 2⟩ := by
  have hlen : 200 ≤ frameB.rows.length := by
    show 200 ≤ (List.replicate 249 blankRow ++ [rowB]).length
    rw [List.length_append, List.length_replicate]
    norm_num
  have hlast : frameB.rows.getLast? = some ⟨some (Cell.num 110), some (Cell.num 100),
      some (Cell.num 0.01), some (Cell.num 105), some (Cell.num 100)⟩ := by
    show (List.replicate 249 blankRow ++ [rowB]).getLast? = _
    rw [List.getLast?_concat]
    rfl
  have h := (decision_rule_final_row frameB 110 100 0.01 105 100 hlen hlast).2.1
    (by norm_num)
  refine ⟨⟨hlen, hlast⟩, ?_⟩
  rw [h]
  norm_num [Recommendation.mk.injEq]

/-- C2: a frame with fewer than 200 rows always yields HOLD with all
four secondary fields null, whatever its rows hold. -/
theorem short_history_holds (fr : Frame) (h : fr.rows.length < 200) :
    make_decision fr = ⟨"HOLD", none, none, none, none⟩ :=
  make_decision_short fr h

/-- Witness for C2 at scenario A: a 199-row frame all of whose rows carry
BUY-triggering indicator values still yields HOLD. -/
theorem short_history_holds_witness :
    frame199.rows.length < 200
    ∧ make_decision frame199 = ⟨"HOLD", none, none, none, none⟩ := by
  have h : frame199.rows.length < 200 := by
    show (List.replicate 199 rowB).length < 200
    rw [List.length_replicate]
    norm_num
  exact ⟨h, short_history_holds frame199 h⟩

/-- C3: on a frame with at least 200 rows whose final row has any of the
five required cells null, the decision rule degrades to HOLD with all
secondary fields null (a handled fallback; the embedding is a total
function, so no exception is possible). -/
theorem missing_indicator_holds (fr : Frame) (row : RawRow)
    (hlen : 200 ≤ fr.rows.length) (hlast : fr.rows.getLast? = some row)
    (hmiss : row.sma50 = none ∨ row.sma200 = none ∨ row.volatility = none
        ∨ row.close = none ∨ row.support = none) :
    make_decision fr = ⟨"HOLD", none, none, none, none⟩ := by
  rw [make_decision_eq_evalLatest fr row hlen hlast]
  exact evalLatest_missing row hmiss

/-- Witness for C3: a 250-row frame whose final row has a null
Volatility cell and otherwise BUY-favourable values yields HOLD. -/
theorem missing_indicator_holds_witness :
    (200 ≤ frameM.rows.length ∧ frameM.rows.getLast? = some rowM
      ∧ rowM.volatility = none)
    ∧ make_decision frameM = ⟨"HOLD", none, none, none, none⟩ := by
  have hlen : 200 ≤ frameM.rows.length := by
    show 200 ≤ (List.replicate 249 blankRow ++ [rowM]).length
    rw [List.length_append, List.length_replicate]
    norm_num
  have hlast : frameM.rows.getLast? = some rowM := by
    show (List.replicate 249 blankRow ++ [rowM]).getLast? = _
    rw [List.getLast?_concat]
  have hmiss : rowM.volatility = none := rfl
  exact ⟨⟨hlen, hlast, hmiss⟩,
    missing_indicator_holds frameM rowM hlen hlast (Or.inr (Or.inr (Or.inl hmiss)))⟩

/-- C4: when the provider returns a zero-row history, `load_data` raises
the no-data error instead of returning an empty table, the error
propagates through the script, and no recommendation is computed. -/
theorem empty_history_raises (symbol : String) :
    load_data symbol [] = Except.error ("No data found for " ++ symbol ++ ".")
    ∧ runApp symbol [] = Except.error ("No data found for " ++ symbol ++ ".")
    ∧ ∀ rec : Recommendation, runApp symbol [] ≠ Except.ok rec := by
  have herr : runApp symbol [] =
      Except.error ("No data found for " ++ symbol ++ ".") := rfl
  refine ⟨rfl, herr, ?_⟩
  intro rec hcon
  rw [herr] at hcon
  exact Except.noConfusion hcon

/-- C5: enrichment preserves shape: the original bars are unchanged (so
every per-bar Open, High, Low, Close, Volume survives verbatim) and each
of the six derived columns has exactly as many rows as the input
history. -/
theorem enrich_shape (bars : List PriceBar) :
    (enrich bars).bars = bars
    ∧ (enrich bars).sma50.length = bars.length
    ∧ (enrich bars).sma200.length = bars.length
    ∧ (enrich bars).dailyReturn.length = bars.length
    ∧ (enrich bars).volatility.length = bars.length
    ∧ (enrich bars).resistance.length = bars.length
    ∧ (enrich bars).support.length = bars.length :=
  ⟨rfl, length_enrich_sma50 bars, length_enrich_sma200 bars,
   length_enrich_dailyReturn bars, length_enrich_volatility bars,
   length_enrich_resistance bars, length_enrich_support bars⟩

/-- C8: every BUY tuple has symmetric 2% offsets
(tp − entry = entry − sl = 0.02 · entry) while the returned ratio is the
literal constant 2. -/
theorem buy_secondary_fields (fr : Frame) (e tp sl rr : ℝ)
    (h : make_decision fr = ⟨"BUY", some e, some tp, some sl, some rr⟩) :
    tp - e = e - sl ∧ tp - e = 0.02 * e ∧ e - sl = 0.02 * e ∧ rr = 2 := by
  unfold make_decision evalLatest at h
  repeat' split at h
  all_goals simp [holdRec, Recommendation.mk.injEq] at h
  obtain ⟨h1, h2, h3, h4⟩ := h
  subst h1
  subst h2
  subst h3
  subst h4
  exact ⟨by ring, by ring, by ring, rfl⟩

/-- Witness for C8: a 250-row frame whose final row triggers BUY at
Close = 100 yields the tuple (BUY, 100, 102, 98, 2), whose offsets are
both 2 and the ratio the literal 2. -/
theorem buy_secondary_fields_witness :
    make_decision frameW = ⟨"BUY", some 100, some 102, some 98, some 2⟩
    ∧ (102 - 100 : ℝ) = 100 - 98 ∧ (102 - 100 : ℝ) = 0.02 * 100
    ∧ (100 - 98 : ℝ) = 0.02 * 100 ∧ (2 : ℝ) = 2 := by
  have hlen : 200 ≤ frameW.rows.length := by
    show 200 ≤ (List.replicate 249 blankRow ++ [rowW]).length
    rw [List.length_append, List.length_replicate]
    norm_num
  have hlast : frameW.rows.getLast? = some rowW := by
    show (List.replicate 249 blankRow ++ [rowW]).getLast? = _
    rw [List.getLast?_concat]
  have hd := make_decision_eq_evalLatest frameW rowW hlen hlast
  have he : evalLatest rowW =
      ⟨"BUY", some 100, some (100 * 1.02), some (100 * 0.98), some 2⟩ := by
    show evalLatest ⟨some (Cell.num 120), some (Cell.num 100),
      some (Cell.num 0.01), some (Cell.num 100), some (Cell.num 90)⟩ = _
    rw [evalLatest_num, if_pos (by norm_num)]
  have hbuy : make_decision frameW = ⟨"BUY", some 100, some 102, some 98, some 2⟩ := by
    rw [hd, he]
    norm_num [Recommendation.mk.injEq]
  have hc := buy_secondary_fields frameW 100 102 98 2 hbuy
  exact ⟨hbuy, hc.1, hc.2.1, hc.2.2.1, hc.2.2.2⟩

/-- C10: the decision function is total and its result has exactly one
of two shapes: HOLD with all four secondary fields null, or BUY with the
full (entry, entry * 1.02, entry * 0.98, 2) quadruple present. -/
theorem decision_two_shapes (fr : Frame) :
    make_decision fr = ⟨"HOLD", none, none, none, none⟩
    ∨ ∃ c : ℝ, make_decision fr =
        ⟨"BUY", some c, some (c * 1.02), some (c * 0.98), some 2⟩ := by
  unfold make_decision evalLatest
  repeat' split
  all_goals first
  | exact Or.inr ⟨_, rfl⟩
  | exact Or.inl rfl

/-- C6: SMA_50 at row t is defined exactly when t ≥ 49, and then equals
the arithmetic mean of the 50 closes over bars t−49 .. t; in particular
for a history shorter than 50 bars it is undefined on every row. -/
theorem sma50_defined_iff (bars : List PriceBar) (t : Nat) (ht : t < bars.length) :
    ((enrich bars).sma50.getD t none ≠ none ↔ 49 ≤ t)
    ∧ (49 ≤ t →
        (enrich bars).sma50.getD t none =
          some (mean (((bars.map PriceBar.close).drop (t - 49)).take 50))
        ∧ (((bars.map PriceBar.close).drop (t - 49)).take 50).length = 50) := by
  constructor
  · by_cases h : 49 ≤ t
    · rw [sma50_getD bars t ht, if_pos h]
      simp [h]
    · rw [sma50_getD bars t ht, if_neg h]
      simp [h]
  · intro h
    refine ⟨by rw [sma50_getD bars t ht, if_pos h], ?_⟩
    rw [List.length_take, List.length_drop, List.length_map]
    omega

/-- Witness for C6 on a concrete 50-bar history at row 49. -/
theorem sma50_defined_iff_witness :
    49 < (List.replicate 50 barU).length
    ∧ (((enrich (List.replicate 50 barU)).sma50.getD 49 none ≠ none ↔ 49 ≤ 49)
      ∧ (49 ≤ 49 →
          (enrich (List.replicate 50 barU)).sma50.getD 49 none =
            some (mean ((((List.replicate 50 barU).map PriceBar.close).drop (49 - 49)).take 50))
          ∧ ((((List.replicate 50 barU).map PriceBar.close).drop (49 - 49)).take 50).length = 50)) := by
  have ht : 49 < (List.replicate 50 barU).length := by
    rw [List.length_replicate]
    norm_num
  exact ⟨ht, sma50_defined_iff (List.replicate 50 barU) 49 ht⟩

/-- C7: on a positive-close history, Volatility at row t is defined
exactly when t ≥ 30 (row 0 has no return, so the 30-return window is
first complete at t = 30); DailyReturn at row i ≥ 1 is
Close(i)/Close(i−1) − 1; when defined, Volatility equals the sample
standard deviation of the 30 daily returns ending at t, and on a
30-element list the sample standard deviation uses divisor 29 = n − 1,
not n. -/
theorem volatility_defined_iff (bars : List PriceBar)
    (_hpos : ∀ b ∈ bars, 0 < b.close) (t : Nat) (ht : t < bars.length) :
    ((enrich bars).volatility.getD t none ≠ none ↔ 30 ≤ t)
    ∧ (∀ i, 1 ≤ i → i < bars.length →
        (enrich bars).dailyReturn.getD i none =
          some (dailyRet (bars.map PriceBar.close) i))
    ∧ (30 ≤ t →
        (enrich bars).volatility.getD t none =
          some (sampleStd ((List.range' (t - 29) 30).map
            (dailyRet (bars.map PriceBar.close))))
        ∧ ((List.range' (t - 29) 30).map
            (dailyRet (bars.map PriceBar.close))).length = 30)
    ∧ (∀ xs : List ℝ, xs.length = 30 →
        sampleStd xs = Real.sqrt ((xs.map (fun x => (x - mean xs) ^ 2)).sum / 29)) := by
  refine ⟨?_, ?_, ?_, ?_⟩
  · by_cases h : 30 ≤ t
    · rw [volatility_getD bars t ht, if_pos h]
      simp [h]
    · rw [volatility_getD bars t ht, if_neg h]
      simp [h]
  · intro i h1 hi
    rw [dailyReturn_getD bars i hi, if_neg (by omega)]
  · intro h
    exact ⟨by rw [volatility_getD bars t ht, if_pos h], by simp⟩
  · intro xs hxs
    unfold sampleStd sampleVar
    rw [hxs]
    norm_num

/-- Witness for C7 on a concrete 31-bar history of unit closes at
row 30. -/
theorem volatility_defined_iff_witness :
    (∀ b ∈ List.replicate 31 barU, 0 < b.close)
    ∧ 30 < (List.replicate 31 barU).length
    ∧ (((enrich (List.replicate 31 barU)).volatility.getD 30 none ≠ none ↔ 30 ≤ 30)
      ∧ (∀ i, 1 ≤ i → i < (List.replicate 31 barU).length →
          (enrich (List.replicate 31 barU)).dailyReturn.getD i none =
            some (dailyRet ((List.replicate 31 barU).map PriceBar.close) i))
      ∧ (30 ≤ 30 →
          (enrich (List.replicate 31 barU)).volatility.getD 30 none =
            some (sampleStd ((List.range' (30 - 29) 30).map
              (dailyRet ((List.replicate 31 barU).map PriceBar.close))))
          ∧ ((List.range' (30 - 29) 30).map
              (dailyRet ((List.replicate 31 barU).map PriceBar.close))).length = 30)
      ∧ (∀ xs : List ℝ, xs.length = 30 →
          sampleStd xs = Real.sqrt ((xs.map (fun x => (x - mean xs) ^ 2)).sum / 29))) := by
  have hpos : ∀ b ∈ List.replicate 31 barU, 0 < b.close := by
    intro b hb
    rw [List.eq_of_mem_replicate hb]
    show (0 : ℝ) < 1
    norm_num
  have ht : 30 < (List.replicate 31 barU).length := by
    rw [List.length_replicate]
    norm_num
  exact ⟨hpos, ht, volatility_defined_iff (List.replicate 31 barU) hpos 30 ht⟩

/-! ### Lemmas connecting the enriched frame to `make_decision` -/

theorem toFrame_enrich_length (bars : List PriceBar) :
    (toFrame (enrich bars)).rows.length = bars.length := by
  show ((List.range (enrich bars).bars.length).map _).length = _
  rw [List.length_map, List.length_range]
  rfl

theorem col_getLast_getD (l : List (Option ℝ)) :
    l.getLast?.getD none = l.getD (l.length - 1) none := by
  rw [List.getLast?_eq_getElem?, List.getD_eq_getElem?_getD]

theorem toFrame_enrich_getLast (bars : List PriceBar) (hne : bars ≠ []) :
    (toFrame (enrich bars)).rows.getLast? = some
      { sma50 := ((enrich bars).sma50.getD (bars.length - 1) none).map Cell.num
        sma200 := ((enrich bars).sma200.getD (bars.length - 1) none).map Cell.num
        volatility := ((enrich bars).volatility.getD (bars.length - 1) none).map Cell.num
        close := some (Cell.num ((bars.map PriceBar.close).getD (bars.length - 1) 0))
        support := ((enrich bars).support.getD (bars.length - 1) none).map Cell.num } := by
  have hn : 0 < bars.length := List.length_pos.2 hne
  show ((List.range bars.length).map _).getLast? = _
  rw [List.getLast?_eq_getElem?, List.length_map, List.length_range,
      List.getElem?_map, List.getElem?_range (by omega)]
  rfl

theorem lastRow_rawOf (bars : List PriceBar) (row : Row)
    (h : lastRow (enrich bars) = some row) :
    bars ≠ []
    ∧ (toFrame (enrich bars)).rows.getLast? = some (rawOf row)
    ∧ (row.sma200 = none ↔ bars.length < 200) := by
  have hb : (enrich bars).bars = bars := rfl
  unfold lastRow at h
  rw [Option.map_eq_some'] at h
  obtain ⟨b, hbl, hrow⟩ := h
  rw [hb] at hbl
  have hne : bars ≠ [] := by
    intro hnil
    rw [hnil] at hbl
    exact Option.noConfusion hbl
  have hn : 0 < bars.length := List.length_pos.2 hne
  have hclose : (bars.map PriceBar.close).getD (bars.length - 1) 0 = b.close := by
    rw [List.getD_eq_getElem?_getD, List.getElem?_map, ← List.getLast?_eq_getElem?, hbl]
    rfl
  subst hrow
  refine ⟨hne, ?_, ?_⟩
  · rw [toFrame_enrich_getLast bars hne]
    unfold rawOf
    simp only [col_getLast_getD, length_enrich_sma50, length_enrich_sma200,
      length_enrich_volatility, length_enrich_support, hclose]
  · have hcol : (Row.mk b ((enrich bars).sma50.getLast?.getD none)
        ((enrich bars).sma200.getLast?.getD none)
        ((enrich bars).dailyReturn.getLast?.getD none)
        ((enrich bars).volatility.getLast?.getD none)
        ((enrich bars).resistance.getLast?.getD none)
        ((enrich bars).support.getLast?.getD none)).sma200
        = (enrich bars).sma200.getD (bars.length - 1) none := by
      show (enrich bars).sma200.getLast?.getD none = _
      rw [col_getLast_getD, length_enrich_sma200]
    rw [hcol, sma200_getD bars (bars.length - 1) (by omega)]
    by_cases h2 : 199 ≤ bars.length - 1
    · rw [if_pos h2]
      constructor
      · intro hcon
        exact Option.noConfusion hcon
      · intro hlt
        omega
    · rw [if_neg h2]
      constructor
      · intro _
        omega
      · intro _
        rfl

/-- C9: the decision is a pure function of the final enriched row: two
enriched histories with identical final rows (all eleven fields) get the
same recommendation, however often the rule is evaluated.  The key fact
is that SMA_200 is non-null on the final row exactly when the history
has at least 200 bars, so even the length test of `make_decision` is
determined by the final row. -/
theorem decision_depends_only_on_last_row (b1 b2 : List PriceBar)
    (h : lastRow (enrich b1) = lastRow (enrich b2)) :
    make_decision (toFrame (enrich b1)) = make_decision (toFrame (enrich b2)) := by
  cases hr1 : lastRow (enrich b1) with
  | none =>
    have hr2 : lastRow (enrich b2) = none := by rw [← h, hr1]
    have he1 : b1 = [] := by
      have hl : (enrich b1).bars.getLast? = none := by
        unfold lastRow at hr1
        exact Option.map_eq_none'.1 hr1
      rwa [show (enrich b1).bars = b1 from rfl, List.getLast?_eq_none_iff] at hl
    have he2 : b2 = [] := by
      have hl : (enrich b2).bars.getLast? = none := by
        unfold lastRow at hr2
        exact Option.map_eq_none'.1 hr2
      rwa [show (enrich b2).bars = b2 from rfl, List.getLast?_eq_none_iff] at hl
    rw [make_decision_short _ (by rw [toFrame_enrich_length, he1]; norm_num),
        make_decision_short _ (by rw [toFrame_enrich_length, he2]; norm_num)]
  | some row =>
    have hr2 : lastRow (enrich b2) = some row := by rw [← h, hr1]
    obtain ⟨hne1, hlast1, hiff1⟩ := lastRow_rawOf b1 row hr1
    obtain ⟨hne2, hlast2, hiff2⟩ := lastRow_rawOf b2 row hr2
    by_cases hm : row.sma200 = none
    · rw [make_decision_short _ (by rw [toFrame_enrich_length]; exact hiff1.1 hm),
          make_decision_short _ (by rw [toFrame_enrich_length]; exact hiff2.1 hm)]
    · have l1 : 200 ≤ b1.length := by
        rcases Nat.lt_or_ge b1.length 200 with hlt | hge
        · exact absurd (hiff1.2 hlt) hm
        · exact hge
      have l2 : 200 ≤ b2.length := by
        rcases Nat.lt_or_ge b2.length 200 with hlt | hge
        · exact absurd (hiff2.2 hlt) hm
        · exact hge
      rw [make_decision_eq_evalLatest _ (rawOf row)
            (by rw [toFrame_enrich_length]; exact l1) hlast1,
          make_decision_eq_evalLatest _ (rawOf row)
            (by rw [toFrame_enrich_length]; exact l2) hlast2]

/-- Witness for C9 on a concrete 250-bar history (compared with itself,
the hypothesis holding by reflexivity). -/
theorem decision_depends_only_on_last_row_witness :
    lastRow (enrich (List.replicate 250 barU))
      = lastRow (enrich (List.replicate 250 barU))
    ∧ make_decision (toFrame (enrich (List.replicate 250 barU)))
      = make_decision (toFrame (enrich (List.replicate 250 barU))) :=
  ⟨rfl, decision_depends_only_on_last_row _ _ rfl⟩
